import Mathlib

/-!
Verification development for the retrieval-augmented chat backend
(`web3-insight-chat`).  The JavaScript services are shallowly embedded as
Lean functions: the vector-store search pipeline (`searchSimilar` in
`backend/services/vectorStore.js`), query expansion
(`generateQueryVariants`), metadata-filter compilation
(`buildMetadataFilter`), batch insertion (`addDocuments`), deletion
(`deleteDocument`), the embedding gateway (`getEmbedding` in
`backend/services/embeddings.js`), the external context provider
(`searchWeb3Context` in `backend/services/web3.js`) and the streaming chat
orchestrator (`handleChatStream` in `backend/controllers/chat.js`).

External effects are made explicit parameters:
* the embedding provider is an oracle `String → List ℚ` (per query text)
  together with a cosine-similarity oracle `List ℚ → List ℚ → ℚ`
  standing for pgvector's `1 - (embedding <=> query)` computation
  (IEEE floats are modelled by rationals);
* Postgres execution of the search SQL is modelled by an executable
  function over an in-memory table, mirroring the WHERE / ORDER BY / LIMIT
  clauses of the query text verbatim;
* per-statement storage failures and HTTP fetch outcomes are failure
  oracles passed in as arguments;
* the LLM completion stream is a finite chunk sequence followed by either
  normal termination or an error.
-/

/-! ## JavaScript string primitives, modelled structurally over `List Char` -/

/-- Whitespace test used to model `String.prototype.trim` (ASCII subset). -/
def isJsWhitespace (c : Char) : Bool :=
  c == ' ' || c == '\t' || c == '\n' || c == '\r'

/-- Model of JavaScript `s.trim()`. -/
def jsTrim (s : String) : String :=
  (((s.toList.dropWhile isJsWhitespace).reverse.dropWhile isJsWhitespace).reverse).asString

/-- ASCII lower-casing of one character, modelling `toLowerCase` per char. -/
def jsToLowerChar (c : Char) : Char :=
  if 'A' ≤ c && c ≤ 'Z' then Char.ofNat (c.toNat + 32) else c

/-- Model of JavaScript `s.toLowerCase()` (ASCII subset). -/
def jsToLower (s : String) : String :=
  (s.toList.map jsToLowerChar).asString

/-- Substring occurrence test on character lists. -/
def containsSub (hay need : List Char) : Bool :=
  match hay with
  | [] => need.isEmpty
  | _ :: t => need.isPrefixOf hay || containsSub t need

/-- Model of JavaScript `s.includes(pat)`. -/
def jsIncludes (s pat : String) : Bool :=
  containsSub s.toList pat.toList

/-- Model of JavaScript `s.startsWith(pat)`. -/
def jsStartsWith (s pat : String) : Bool :=
  pat.toList.isPrefixOf s.toList

/-- Helper for `jsSplitOnSpace`: split accumulated characters at `' '`. -/
def splitSpaceAux : List Char → List Char → List String
  | [], cur => [cur.reverse.asString]
  | c :: rest, cur =>
    if c == ' ' then cur.reverse.asString :: splitSpaceAux rest []
    else splitSpaceAux rest (c :: cur)

/-- Model of JavaScript `s.split(' ')`. -/
def jsSplitOnSpace (s : String) : List String :=
  splitSpaceAux s.toList []

/-- Model of `s.replace(/\?+$/, '')`: drop the trailing run of `?`. -/
def stripTrailingQM (s : String) : String :=
  ((s.toList.reverse.dropWhile (fun c => c == '?')).reverse).asString

/-! ## JSON-ish values and the metadata filter compiler
(`buildMetadataFilter` in `backend/services/vectorStore.js`) -/

/-- JavaScript values as they appear in metadata-filter objects. -/
inductive JSValue where
  | null
  | undefined
  | str (s : String)
  | num (q : ℚ)
  | bool (b : Bool)
  | arr (elems : List JSValue)
  | obj (fields : List (String × JSValue))

/-- Rendering of a rational standing in for JS number-to-string coercion
(the exact float formatting is abstracted). -/
def jsNumToString (q : ℚ) : String :=
  toString q.num ++ (if q.den == 1 then "" else "/" ++ toString q.den)

mutual
/-- Model of JavaScript `String(value)`. -/
def jsString : JSValue → String
  | .null => "null"
  | .undefined => "undefined"
  | .str s => s
  | .num q => jsNumToString q
  | .bool true => "true"
  | .bool false => "false"
  | .arr elems => String.intercalate "," (jsStringList elems)
  | .obj _ => "[object Object]"

/-- `jsString` mapped over a list of values. -/
def jsStringList : List JSValue → List String
  | [] => []
  | v :: rest => jsString v :: jsStringList rest
end

/-- Model of JavaScript truthiness. -/
def jsTruthy : JSValue → Bool
  | .null => false
  | .undefined => false
  | .str s => !(s == "")
  | .num q => !(q.num == 0)
  | .bool b => b
  | .arr _ => true
  | .obj _ => true

/-- First character of a valid filter key: `[a-zA-Z_]`. -/
def isIdentStart (c : Char) : Bool :=
  ('a' ≤ c && c ≤ 'z') || ('A' ≤ c && c ≤ 'Z') || c == '_'

/-- Later characters of a valid filter key: `[a-zA-Z0-9_]`. -/
def isIdentChar (c : Char) : Bool :=
  isIdentStart c || ('0' ≤ c && c ≤ '9')

/-- The key validator `/^[a-zA-Z_][a-zA-Z0-9_]*$/` from the source. -/
def isValidKey (key : String) : Bool :=
  match key.toList with
  | [] => false
  | c :: rest => isIdentStart c && rest.all isIdentChar

/-- One compiled SQL filter condition, with its parameters carried
semantically (the source builds a SQL text plus a parameter list; the
`paramIndex` bookkeeping only affects placeholder numbering). -/
inductive FilterCondition where
  | eq (key : String) (value : String)
  | inList (key : String) (values : List String)
  | like (key : String) (caseInsensitive : Bool) (pattern : String)
  | existsKey (key : String) (positive : Bool)

/-- Conditions contributed by a single operator entry of an operator
object, mirroring the inner `for (const [op, opValue] of ...)` loop. -/
def opConditions (key : String) (op : String) (opValue : JSValue) :
    List FilterCondition :=
  if op == "$in" then
    match opValue with
    | .arr elems => if elems.isEmpty then [] else [.inList key (jsStringList elems)]
    | _ => []
  else if op == "$like" || op == "$ilike" then
    match opValue with
    | .str s => [.like key (op == "$ilike") s]
    | _ => []
  else if op == "$exists" then
    [.existsKey key (jsTruthy opValue)]
  else []

/-- Conditions contributed by one `[key, value]` entry of the metadata
filter, mirroring the outer loop of `buildMetadataFilter`: null/undefined
values are skipped, then invalid keys are skipped, then scalars compile to
an equality and operator objects to their recognized operators; arrays
(and anything else) contribute nothing. -/
def entryConditions (entry : String × JSValue) : List FilterCondition :=
  match entry.2 with
  | .null => []
  | .undefined => []
  | value =>
    if !(isValidKey entry.1) then []
    else
      match value with
      | .str _ => [.eq entry.1 (jsString value)]
      | .num _ => [.eq entry.1 (jsString value)]
      | .bool _ => [.eq entry.1 (jsString value)]
      | .obj fields => (fields.map (fun f => opConditions entry.1 f.1 f.2)).flatten
      | _ => []

/-- Model of `buildMetadataFilter`: the list of compiled filter
conditions, in entry order. -/
def buildMetadataFilter (metadataFilter : List (String × JSValue)) :
    List FilterCondition :=
  (metadataFilter.map entryConditions).flatten

/-! ## Query expansion (`generateQueryVariants`) -/

/-- The rephrasing templates of `generateQueryVariants`, instantiated at
the normalized query (trailing question marks stripped). -/
def variantTemplates (normalized : String) : List String :=
  [ "What is " ++ normalized ++ "?"
  , "Explain " ++ normalized
  , "Detailed overview of " ++ normalized
  , "How does " ++ normalized ++ " work?"
  , "Key facts about " ++ normalized ]

/-- One step of the template loop: skip once the set is full, otherwise
add the template unless it is already present (`Set` semantics modelled as
an insertion-ordered duplicate-free list). -/
def addVariant (maxVariants : Nat) (variants : List String) (t : String) :
    List String :=
  if maxVariants ≤ variants.length then variants
  else if variants.contains t then variants
  else variants ++ [t]

/-- Model of `generateQueryVariants(query, maxVariants)`. -/
def generateQueryVariants (query : String) (maxVariants : Nat) : List String :=
  let trimmed := jsTrim query
  if trimmed = "" then []
  else
    let normalized := stripTrailingQM trimmed
    let lower := jsToLower normalized
    let afterTemplates :=
      (variantTemplates normalized).foldl (addVariant maxVariants) [trimmed]
    let afterStatement :=
      if (jsStartsWith lower "what is " || jsStartsWith lower "who is " ||
          jsStartsWith lower "tell me about ") &&
          afterTemplates.length < maxVariants then
        if afterTemplates.contains normalized then afterTemplates
        else afterTemplates ++ [normalized]
      else afterTemplates
    afterStatement.take maxVariants

/-! ## Vector store model -/

/-- A persisted row of the `document_embeddings` table. -/
structure StoredRow where
  id : Nat
  content : String
  metadata : List (String × JSValue)
  embedding : List ℚ

/-- The vector store: the table rows plus the auto-increment sequence. -/
structure Store where
  rows : List StoredRow
  nextId : Nat

/-- One search result row as returned by the similarity query
(`id, content, metadata, 1 - (embedding <=> $1::vector) AS similarity`). -/
structure SearchRow where
  id : Nat
  content : String
  metadata : List (String × JSValue)
  similarity : ℚ

/-- Value of `metadata->>'key'` (text extraction, `none` for SQL NULL). -/
def metaText (metadata : List (String × JSValue)) (key : String) :
    Option String :=
  match (metadata.find? (fun kv => kv.1 == key)).map (fun kv => kv.2) with
  | none => none
  | some JSValue.null => none
  | some v => some (jsString v)

/-- SQL `LIKE` pattern matching with `%` and `_` wildcards. -/
def likeMatch : List Char → List Char → Bool
  | [], [] => true
  | [], _ :: _ => false
  | '%' :: ps, s =>
    likeMatch ps s ||
      (match s with
       | [] => false
       | _ :: t => likeMatch ('%' :: ps) t)
  | '_' :: ps, s =>
    (match s with
     | [] => false
     | _ :: t => likeMatch ps t)
  | p :: ps, s =>
    (match s with
     | [] => false
     | c :: t => p == c && likeMatch ps t)
termination_by ps s => (ps.length, s.length)

/-- Truth value of one compiled filter condition at a row's metadata. -/
def evalCondition (metadata : List (String × JSValue)) :
    FilterCondition → Bool
  | .eq key v => metaText metadata key == some v
  | .inList key vs =>
    match metaText metadata key with
    | some t => vs.contains t
    | none => false
  | .like key ci pat =>
    match metaText metadata key with
    | some t =>
      if ci then likeMatch (jsToLower pat).toList (jsToLower t).toList
      else likeMatch pat.toList t.toList
    | none => false
  | .existsKey key positive =>
    (metadata.any (fun kv => kv.1 == key)) == positive

/-- Stable insertion of a row into a similarity-descending list; equal
similarities keep their relative order, matching the stable JS sort with
comparator `(a, b) => b.similarity - a.similarity`. -/
def insertBySimDesc (r : SearchRow) : List SearchRow → List SearchRow
  | [] => [r]
  | x :: xs =>
    if x.similarity < r.similarity then r :: x :: xs
    else x :: insertBySimDesc r xs

/-- Stable sort by similarity descending. -/
def sortBySimDesc : List SearchRow → List SearchRow
  | [] => []
  | x :: xs => insertBySimDesc x (sortBySimDesc xs)

/-- Executable model of Postgres running the per-variant search statement:
`WHERE 1 - (embedding <=> $1) >= $2 AND <filter conditions>`
`ORDER BY embedding <=> $1 LIMIT $3`, where `cosSim` is the oracle for
`1 - (embedding <=> queryEmbedding)`. -/
def sqlSimilaritySearch (table : List StoredRow) (queryEmbedding : List ℚ)
    (cosSim : List ℚ → List ℚ → ℚ) (minSimilarity : ℚ) (limit : Nat)
    (conds : List FilterCondition) : List SearchRow :=
  let matching := table.filter (fun row =>
    decide (minSimilarity ≤ cosSim queryEmbedding row.embedding) &&
      conds.all (evalCondition row.metadata))
  let resultRows := matching.map (fun row =>
    SearchRow.mk row.id row.content row.metadata
      (cosSim queryEmbedding row.embedding))
  (sortBySimDesc resultRows).take limit

/-- One `resultsMap` update of the fusion loop: `Map.get` then
`Map.set` when the row is new or strictly more similar (`Map.set` on an
existing key updates in place, keeping the insertion position). -/
def upsertResult (m : List SearchRow) (row : SearchRow) : List SearchRow :=
  match m.find? (fun e => e.id == row.id) with
  | none => m ++ [row]
  | some existing =>
    if existing.similarity < row.similarity then
      m.map (fun e => if e.id == row.id then row else e)
    else m

/-- The variant set driven by the environment flags, as computed at the
top of `searchSimilar` (`maxVariants = Math.max(1, parsed)`). -/
def variantQueries (query : String) (expansionEnabled : Bool)
    (maxVariantsEnv : Nat) : List String :=
  if expansionEnabled then generateQueryVariants query (max 1 maxVariantsEnv)
  else [jsTrim query]

/-- Model of `searchSimilar(query, limit, minSimilarity, metadataFilter)`:
throws on an empty query, then for each variant runs the similarity
statement, fuses the per-variant rows keyed by id keeping the maximum
similarity, sorts the fused set by similarity descending and truncates to
`limit`. `embedOf` is the embedding-gateway oracle. -/
def searchSimilar (table : List StoredRow) (embedOf : String → List ℚ)
    (cosSim : List ℚ → List ℚ → ℚ) (query : String) (limit : Nat)
    (minSimilarity : ℚ) (metadataFilter : List (String × JSValue))
    (expansionEnabled : Bool) (maxVariantsEnv : Nat) :
    Except String (List SearchRow) :=
  if jsTrim query = "" then .error "Query cannot be empty"
  else
    let queries := variantQueries query expansionEnabled maxVariantsEnv
    let filterConditions := buildMetadataFilter metadataFilter
    let resultsMap := queries.foldl (fun m variant =>
      (sqlSimilaritySearch table (embedOf variant) cosSim minSimilarity
        limit filterConditions).foldl upsertResult m) []
    .ok ((sortBySimDesc resultsMap).take limit)

/-- All rows produced by the per-variant searches, in variant order; the
fusion loop of `searchSimilar` folds exactly over this list. -/
def allVariantRows (table : List StoredRow) (embedOf : String → List ℚ)
    (cosSim : List ℚ → List ℚ → ℚ) (query : String) (limit : Nat)
    (minSimilarity : ℚ) (metadataFilter : List (String × JSValue))
    (expansionEnabled : Bool) (maxVariantsEnv : Nat) : List SearchRow :=
  ((variantQueries query expansionEnabled maxVariantsEnv).map (fun variant =>
    sqlSimilaritySearch table (embedOf variant) cosSim minSimilarity limit
      (buildMetadataFilter metadataFilter))).flatten

/-! ## Document persistence (`addDocument`, `addDocuments`,
`deleteDocument`) -/

/-- A document as given to the ingestion operations. -/
structure DocInput where
  content : String
  metadata : List (String × JSValue)

/-- One `INSERT INTO document_embeddings ... RETURNING id`: appends the
row, assigns the next sequence id and returns it. -/
def insertRow (store : Store) (content : String)
    (metadata : List (String × JSValue)) (embedding : List ℚ) :
    Nat × Store :=
  (store.nextId,
    Store.mk (store.rows ++ [StoredRow.mk store.nextId content metadata embedding])
      (store.nextId + 1))

/-- Model of `addDocument(content, metadata)`: rejects empty content, then
embeds (`embedOutcome` is the gateway call's result) and inserts. -/
def addDocument (store : Store) (content : String)
    (metadata : List (String × JSValue))
    (embedOutcome : Except String (List ℚ)) :
    Except String Nat × Store :=
  if jsTrim content = "" then (.error "Content cannot be empty", store)
  else
    match embedOutcome with
    | .error e => (.error e, store)
    | .ok embedding =>
      let (id, store1) := insertRow store content metadata embedding
      (.ok id, store1)

/-- The insertion loop of `addDocuments`: one `INSERT` per document;
`insertFails i` says whether the i-th statement fails (`StorageError`).
A failure aborts the loop, but rows already inserted stay committed
(there is no surrounding transaction in the source). -/
def insertDocsLoop (insertFails : Nat → Bool) (store : Store) (i : Nat)
    (ids : List Nat) : List (DocInput × List ℚ) →
    Except String (List Nat) × Store
  | [] => (.ok ids, store)
  | (doc, emb) :: rest =>
    if insertFails i then (.error "StorageError: insert failed", store)
    else
      let (id, store1) := insertRow store doc.content doc.metadata emb
      insertDocsLoop insertFails store1 (i + 1) (ids ++ [id]) rest

/-- Model of `addDocuments(documents)`: rejects an empty batch, performs
one batched embedding call (`embedOutcome`), then inserts the documents
one by one. -/
def addDocuments (insertFails : Nat → Bool)
    (embedOutcome : Except String (List (List ℚ))) (store : Store)
    (documents : List DocInput) : Except String (List Nat) × Store :=
  if documents.length = 0 then
    (.error "Documents must be a non-empty array", store)
  else
    match embedOutcome with
    | .error e => (.error e, store)
    | .ok embeddings =>
      insertDocsLoop insertFails store 0 [] (documents.zip embeddings)

/-- Reference effect of committing a prefix of the batch, used to state
what `addDocuments` leaves behind when a later insert fails. -/
def persistAll (store : Store) : List (DocInput × List ℚ) → Store
  | [] => store
  | (doc, emb) :: rest =>
    persistAll (insertRow store doc.content doc.metadata emb).2 rest

/-- Model of `deleteDocument(id)`:
`DELETE FROM document_embeddings WHERE id = $1 RETURNING id` followed by
`result.rows[0]?.id` (absent id gives no row, hence no error). -/
def deleteDocument (store : Store) (id : Nat) : Option Nat × Store :=
  let deletedRows := store.rows.filter (fun r => r.id == id)
  ((deletedRows.head?).map (fun r => r.id),
    Store.mk (store.rows.filter (fun r => !(r.id == id))) store.nextId)

/-! ## Embedding gateway (`getEmbedding` in
`backend/services/embeddings.js`) -/

/-- Model of `getEmbedding(text)`. `apiKey` is
`process.env.OPENAI_API_KEY` (`none` when unset; the empty string is
falsy in JS and behaves like unset). `fetchOutcome` is the upstream
HTTP call's result, consulted only after both local checks pass. -/
def getEmbedding (apiKey : Option String)
    (fetchOutcome : Except String (List ℚ)) (text : String) :
    Except String (List ℚ) :=
  if jsTrim text = "" then .error "Text cannot be empty"
  else if apiKey.getD "" = "" then
    .error "OPENAI_API_KEY not found in environment variables"
  else fetchOutcome

/-! ## External context provider (`searchWeb3Context` in
`backend/services/web3.js`) -/

/-- A top-market entry as shaped by `getCryptoMarketData` (numeric fields
are kept as display strings; only interpolation uses them). -/
structure MarketEntry where
  name : String
  symbol : String
  price : String

/-- A DeFi-protocol entry as shaped by `getDeFiProtocols`. -/
structure DefiEntry where
  name : String
  chain : String

/-- A trending-coin entry as shaped by `getTrendingCoins`. -/
structure TrendEntry where
  name : String
  symbol : String

/-- Feed results for one request. `getCryptoMarketData` always yields an
array (its `data.map` throws inside the feed's own catch on malformed
data, giving `[]`), while `getDeFiProtocols` / `getTrendingCoins` use
optional chaining (`data?.filter`, `data.coins?.slice`) and can resolve
to `undefined` (`none`) on a malformed 200 response. A fully unreachable
provider makes every feed catch its fetch error and resolve to `[]`. -/
structure Web3Env where
  marketData : List MarketEntry
  defiProtocols : Option (List DefiEntry)
  trendingCoins : Option (List TrendEntry)

/-- A source attribution `{name, url}`. -/
structure SourceRef where
  name : String
  url : String
deriving DecidableEq

/-- Result shape of `searchWeb3Context`. -/
structure Web3Context where
  relevantData : String
  sources : List SourceRef
deriving DecidableEq

/-- The fixed coin keyword list of `searchWeb3Context`. -/
def coinKeywords : List String :=
  ["bitcoin", "btc", "ethereum", "eth", "bnb", "solana", "sol", "cardano", "ada"]

/-- Market-data sentence of the coin/price branch. -/
def marketText (marketData : List MarketEntry) : String :=
  "Recent market data: " ++
    String.intercalate ", " (marketData.map (fun c =>
      c.name ++ " (" ++ c.symbol ++ ") at $" ++ c.price)) ++ ".\n"

/-- Coin/price branch of `searchWeb3Context`. -/
def marketBranch (env : Web3Env) (trigger : Bool) :
    String × List SourceRef :=
  if trigger then
    if 0 < env.marketData.length then
      (marketText env.marketData,
        [SourceRef.mk "CoinGecko" "https://www.coingecko.com"])
    else ("", [])
  else ("", [])

/-- DeFi branch of `searchWeb3Context`; `defiData.length` on an
`undefined` feed result raises a TypeError (`Except.error`). -/
def defiBranch (env : Web3Env) (trigger : Bool) :
    Except Unit (String × List SourceRef) :=
  if trigger then
    match env.defiProtocols with
    | none => .error ()
    | some defiData =>
      if 0 < defiData.length then
        .ok ("Top DeFi protocols: " ++
          String.intercalate ", " (defiData.map (fun p =>
            p.name ++ " on " ++ p.chain)) ++ ".\n",
          [SourceRef.mk "DeFiLlama" "https://defillama.com"])
      else .ok ("", [])
  else .ok ("", [])

/-- Trending branch of `searchWeb3Context`; `trending.length` on an
`undefined` feed result raises a TypeError. -/
def trendingBranch (env : Web3Env) (trigger : Bool) :
    Except Unit (String × List SourceRef) :=
  if trigger then
    match env.trendingCoins with
    | none => .error ()
    | some trending =>
      if 0 < trending.length then
        .ok ("Currently trending: " ++
          String.intercalate ", " (trending.map (fun c =>
            c.name ++ " (" ++ c.symbol ++ ")")) ++ ".\n",
          [SourceRef.mk "CoinGecko" "https://www.coingecko.com"])
      else .ok ("", [])
  else .ok ("", [])

/-- The `try` body of `searchWeb3Context(query)` (the `timestamp` field of
`getWeb3Trends` is not consulted and is omitted). -/
def searchWeb3ContextBody (env : Web3Env) (query : String) :
    Except Unit Web3Context := do
  let lowerQuery := jsToLower query
  let keywords := jsSplitOnSpace lowerQuery
  let hasCoinKeyword := coinKeywords.any (fun keyword =>
    keywords.any (fun k => jsIncludes k keyword))
  let market := marketBranch env
    (hasCoinKeyword || jsIncludes lowerQuery "price" ||
      jsIncludes lowerQuery "coin")
  let defi ← defiBranch env
    (jsIncludes lowerQuery "defi" || jsIncludes lowerQuery "lending" ||
      jsIncludes lowerQuery "yield")
  let trending ← trendingBranch env
    (jsIncludes lowerQuery "trending" || jsIncludes lowerQuery "trend")
  let relevantData := market.1 ++ defi.1 ++ trending.1
  let sources := market.2 ++ defi.2 ++ trending.2
  if relevantData = "" then
    let generalExtra :=
      if 0 < env.marketData.length then
        "Current top cryptocurrencies include " ++
          String.intercalate ", " ((env.marketData.take 3).map
            (fun c => c.name)) ++ "."
      else ""
    .ok (Web3Context.mk
      ("Web3 ecosystem is evolving rapidly with DeFi, NFTs, and Layer 2 solutions. "
        ++ generalExtra)
      (sources ++ [SourceRef.mk "CoinGecko" "https://www.coingecko.com"]))
  else
    .ok (Web3Context.mk relevantData sources)

/-- Model of `searchWeb3Context(query)`: the `try` body with the
catch-all fallback context. -/
def searchWeb3Context (env : Web3Env) (query : String) : Web3Context :=
  match searchWeb3ContextBody env query with
  | .ok r => r
  | .error _ =>
    Web3Context.mk
      ("Web3 is a rapidly evolving space including DeFi, NFTs, blockchain technology, and cryptocurrencies. "
        ++ "Due to network constraints, I cannot fetch current market data, but I can still discuss Web3 concepts and trends.")
      [SourceRef.mk "General Web3 Knowledge" "#"]

/-! ## Stream orchestrator (`handleChatStream` in
`backend/controllers/chat.js`) -/

/-- One server-sent event of the streaming protocol. -/
inductive ChatEvent where
  | sources (sources : List SourceRef)
  | start (message : String)
  | chunk (content : String)
  | done (message : String) (fullContent : String)
  | error (err : String)
deriving DecidableEq

/-- Behaviour of the lazy completion stream returned by
`streamLLMResponse`: the chunks it yields, then either normal
termination (`failure = none`) or an error thrown after the last yielded
chunk (`failure = some message`); an immediate throw is `chunks = []`. -/
structure StreamBehavior where
  chunks : List String
  failure : Option String

/-- Source attribution built from one retrieved document:
`doc.metadata?.title || doc.metadata?.source || 'Stored Knowledge'` and
`doc.metadata?.url || '#'` (string-valued metadata modelled; a missing or
empty string falls through the `||`). -/
def docSourceRef (doc : SearchRow) : SourceRef :=
  SourceRef.mk
    (match metaText doc.metadata "title" with
     | some t => if t = "" then
         (match metaText doc.metadata "source" with
          | some s => if s = "" then "Stored Knowledge" else s
          | none => "Stored Knowledge")
       else t
     | none =>
       match metaText doc.metadata "source" with
       | some s => if s = "" then "Stored Knowledge" else s
       | none => "Stored Knowledge")
    (match metaText doc.metadata "url" with
     | some u => if u = "" then "#" else u
     | none => "#")

/-- `vectorSources` after step 1 of `handleChatStream`: empty when the
search threw (caught and logged) or found nothing. -/
def vectorSourcesOf (searchOutcome : Except String (List SearchRow)) :
    List SourceRef :=
  match searchOutcome with
  | .error _ => []
  | .ok docs => if 0 < docs.length then docs.map docSourceRef else []

/-- `vectorContext` after step 1 of `handleChatStream`. -/
def vectorContextOf (searchOutcome : Except String (List SearchRow)) :
    String :=
  match searchOutcome with
  | .error _ => ""
  | .ok docs =>
    if 0 < docs.length then
      String.intercalate "\n\n" (docs.map (fun doc =>
        "[From stored knowledge]: " ++ doc.content))
    else ""

/-- Step 3 of `handleChatStream`: combine vector and Web3 context,
dropping blank segments. -/
def combinedContextOf (searchOutcome : Except String (List SearchRow))
    (web3Context : Web3Context) : String :=
  String.intercalate "\n\n"
    ([vectorContextOf searchOutcome, web3Context.relevantData].filter
      (fun c => !(jsTrim c = "")))

/-- User-safe message for a mid-stream failure: missing-API-key errors are
named explicitly, anything else becomes the generic message. -/
def streamErrorMessage (msg : String) : String :=
  if jsIncludes msg "API key" then
    "To use this feature, please configure your LLM API key in the backend/.env file. Error: " ++ msg
  else "An error occurred while generating the response."

/-- Accumulation of `fullContent += chunk` over the received chunks. -/
def accumulateChunks (chunks : List String) : String :=
  chunks.foldl (fun acc c => acc ++ c) ""

/-- Model of `handleChatStream(req, res)`: the ordered list of server-sent
events written to the response. `searchOutcome` is the result of the
`searchSimilar` call of step 1 (exceptions are caught there),
`web3Context` the result of `searchWeb3Context` (total, see
`searchWeb3Context`), and `streamLLM` the behaviour of
`streamLLMResponse(message, combinedContext)`. An empty message is
rejected with a 400 response before any event is written
(`Except.error`). -/
def handleChatStream (message : String)
    (searchOutcome : Except String (List SearchRow))
    (web3Context : Web3Context)
    (streamLLM : String → String → StreamBehavior) :
    Except String (List ChatEvent) :=
  if message = "" then .error "Message is required"
  else
    let vectorSources := vectorSourcesOf searchOutcome
    let combinedContext := combinedContextOf searchOutcome web3Context
    let sources := vectorSources ++ web3Context.sources
    let stream := streamLLM message combinedContext
    .ok ([ChatEvent.sources sources,
          ChatEvent.start "Starting response..."] ++
      stream.chunks.map ChatEvent.chunk ++
      [match stream.failure with
       | none => ChatEvent.done "Response complete" (accumulateChunks stream.chunks)
       | some msg => ChatEvent.error (streamErrorMessage msg)])

/-- Chunk payload extractor used to relate `done.fullContent` to the
emitted `chunk` events. -/
def chunkPayload : ChatEvent → Option String
  | .chunk c => some c
  | _ => none

/-! ## Claim C10: missing `OPENAI_API_KEY` fails before any upstream call -/

/-- C10: for non-empty, non-whitespace text, an unset `OPENAI_API_KEY`
makes `getEmbedding` fail with the error naming the missing key,
independently of any upstream fetch outcome (hence before any provider
call); the empty-text check runs first, so blank text fails with the
empty-text error even when a key is configured. -/
theorem getEmbedding_missing_key_first (text : String) :
    (jsTrim text ≠ "" →
      ∀ fetchOutcome, getEmbedding none fetchOutcome text =
        .error "OPENAI_API_KEY not found in environment variables") ∧
    (jsTrim text = "" →
      ∀ apiKey fetchOutcome, getEmbedding apiKey fetchOutcome text =
        .error "Text cannot be empty") := by
  constructor
  · intro h fetchOutcome
    simp [getEmbedding, h]
  · intro h apiKey fetchOutcome
    simp [getEmbedding, h]

/-- Witness for C10 at concrete inputs. -/
theorem getEmbedding_missing_key_first_witness :
    (jsTrim "hello" ≠ "" ∧
      getEmbedding none (.ok [mkRat 1 2]) "hello" =
        .error "OPENAI_API_KEY not found in environment variables") ∧
    (jsTrim "  " = "" ∧
      getEmbedding (some "sk-key") (.ok [mkRat 1 2]) "  " =
        .error "Text cannot be empty") :=
  ⟨⟨by decide, (getEmbedding_missing_key_first "hello").1 (by decide) (.ok [mkRat 1 2])⟩,
   ⟨by decide, (getEmbedding_missing_key_first "  ").2 (by decide) (some "sk-key") (.ok [mkRat 1 2])⟩⟩

/-! ## Claim C8: `deleteDocument` returns the id or null, never fails -/

/-- C8: deleting an existing id returns that id and a second delete of the
same id returns null (`rows[0]?.id` of an empty result set); deleting a
missing id returns null without failing and leaves the store unchanged. -/
theorem deleteDocument_id_or_null (store : Store) (id : Nat) :
    ((∃ row ∈ store.rows, row.id = id) →
      (deleteDocument store id).1 = some id ∧
      (deleteDocument (deleteDocument store id).2 id).1 = none) ∧
    ((∀ row ∈ store.rows, row.id ≠ id) →
      (deleteDocument store id).1 = none ∧
      (deleteDocument store id).2 = store) := by
  constructor
  · rintro ⟨row, hmem, hid⟩
    constructor
    · cases hfl : store.rows.filter (fun r => r.id == id) with
      | nil =>
        have hrow := List.filter_eq_nil_iff.mp hfl row hmem
        rw [hid] at hrow
        simp at hrow
      | cons x xs =>
        have hx : x ∈ store.rows.filter (fun r => r.id == id) := by
          rw [hfl]; exact List.mem_cons_self x xs
        have hxid : x.id = id := by simpa using (List.mem_filter.mp hx).2
        simp [deleteDocument, hfl, hxid]
    · have hnone :
          ((deleteDocument store id).2.rows.filter (fun r => r.id == id)) = [] := by
        apply List.filter_eq_nil_iff.mpr
        intro r hr
        simp [deleteDocument] at hr
        simp [hr.2]
      simp [deleteDocument, hnone]
  · intro h
    have hfl : store.rows.filter (fun r => r.id == id) = [] :=
      List.filter_eq_nil_iff.mpr (fun r hr => by simpa using h r hr)
    have hkeep : store.rows.filter (fun r => !(r.id == id)) = store.rows :=
      List.filter_eq_self.mpr (fun r hr => by simpa using h r hr)
    cases store with
    | mk rows nextId => simp_all [deleteDocument]

/-- Witness for C8: a one-row store, deleting id 7 twice, then a missing
id. -/
theorem deleteDocument_id_or_null_witness :
    ((∃ row ∈ (Store.mk [StoredRow.mk 7 "doc" [] []] 8).rows, row.id = 7) ∧
      ((deleteDocument (Store.mk [StoredRow.mk 7 "doc" [] []] 8) 7).1 = some 7 ∧
        (deleteDocument (deleteDocument (Store.mk [StoredRow.mk 7 "doc" [] []] 8) 7).2 7).1 = none)) ∧
    ((∀ row ∈ (Store.mk [StoredRow.mk 7 "doc" [] []] 8).rows, row.id ≠ 9) ∧
      ((deleteDocument (Store.mk [StoredRow.mk 7 "doc" [] []] 8) 9).1 = none ∧
        (deleteDocument (Store.mk [StoredRow.mk 7 "doc" [] []] 8) 9).2 =
          Store.mk [StoredRow.mk 7 "doc" [] []] 8)) :=
  ⟨⟨⟨StoredRow.mk 7 "doc" [] [], by simp, rfl⟩,
    (deleteDocument_id_or_null (Store.mk [StoredRow.mk 7 "doc" [] []] 8) 7).1
      ⟨StoredRow.mk 7 "doc" [] [], by simp, rfl⟩⟩,
   ⟨by intro row hrow; simp at hrow; simp [hrow],
    (deleteDocument_id_or_null (Store.mk [StoredRow.mk 7 "doc" [] []] 8) 9).2
      (by intro row hrow; simp at hrow; simp [hrow])⟩⟩

/-! ## Claim C1: streaming event protocol `sources, start, chunk*, done|error` -/

/-- C1: for every request that passes validation (non-empty message), the
emitted event list is exactly one `sources` event, then one `start` event,
then the completion stream's chunks in received order, then exactly one
terminal event — `done` on normal completion, `error` on failure — with
nothing after the terminal event and no chunk retracted, whatever the
retrieval outcome, Web3 context and stream behaviour are. -/
theorem handleChatStream_event_protocol (message : String)
    (searchOutcome : Except String (List SearchRow))
    (web3Context : Web3Context)
    (streamLLM : String → String → StreamBehavior)
    (h : message ≠ "") :
    handleChatStream message searchOutcome web3Context streamLLM =
      Except.ok
        ([ChatEvent.sources (vectorSourcesOf searchOutcome ++ web3Context.sources),
          ChatEvent.start "Starting response..."] ++
          (streamLLM message (combinedContextOf searchOutcome web3Context)).chunks.map
            ChatEvent.chunk ++
          [match (streamLLM message (combinedContextOf searchOutcome web3Context)).failure with
           | none => ChatEvent.done "Response complete"
               (accumulateChunks
                 (streamLLM message (combinedContextOf searchOutcome web3Context)).chunks)
           | some msg => ChatEvent.error (streamErrorMessage msg)]) := by
  simp [handleChatStream, h]

/-- Witness for C1: a concrete request whose stream yields two chunks and
ends normally, and the resulting event list. -/
theorem handleChatStream_event_protocol_witness :
    ("What is DeFi?" : String) ≠ "" ∧
    handleChatStream "What is DeFi?" (.error "connect ECONNREFUSED")
      (Web3Context.mk "ctx" [SourceRef.mk "CoinGecko" "https://www.coingecko.com"])
      (fun _ _ => StreamBehavior.mk ["Hel", "lo"] none) =
      Except.ok
        ([ChatEvent.sources (vectorSourcesOf (.error "connect ECONNREFUSED") ++
            [SourceRef.mk "CoinGecko" "https://www.coingecko.com"]),
          ChatEvent.start "Starting response..."] ++
          ([("Hel" : String), "lo"].map ChatEvent.chunk) ++
          [ChatEvent.done "Response complete" (accumulateChunks ["Hel", "lo"])]) :=
  ⟨by decide,
    handleChatStream_event_protocol "What is DeFi?" (.error "connect ECONNREFUSED")
      (Web3Context.mk "ctx" [SourceRef.mk "CoinGecko" "https://www.coingecko.com"])
      (fun _ _ => StreamBehavior.mk ["Hel", "lo"] none) (by decide)⟩

/-! ## Claim C5: `done.fullContent` is the concatenation of the chunk events -/

/-- C5: when the completion stream ends normally, the final event is a
`done` event whose `fullContent` equals the concatenation, in emission
order, of the payloads of all emitted `chunk` events (the `fullContent +=
chunk` accumulator). -/
theorem handleChatStream_done_fullContent (message : String)
    (searchOutcome : Except String (List SearchRow))
    (web3Context : Web3Context)
    (streamLLM : String → String → StreamBehavior)
    (h : message ≠ "")
    (hok : (streamLLM message (combinedContextOf searchOutcome web3Context)).failure = none) :
    ∃ events, handleChatStream message searchOutcome web3Context streamLLM =
        Except.ok events ∧
      ∃ fullContent,
        events.getLast? = some (ChatEvent.done "Response complete" fullContent) ∧
        fullContent = accumulateChunks (events.filterMap chunkPayload) := by
  refine ⟨[ChatEvent.sources (vectorSourcesOf searchOutcome ++ web3Context.sources),
      ChatEvent.start "Starting response..."] ++
      (streamLLM message (combinedContextOf searchOutcome web3Context)).chunks.map
        ChatEvent.chunk ++
      [ChatEvent.done "Response complete"
        (accumulateChunks
          (streamLLM message (combinedContextOf searchOutcome web3Context)).chunks)],
    by simp [handleChatStream, h, hok],
    accumulateChunks (streamLLM message (combinedContextOf searchOutcome web3Context)).chunks,
    List.getLast?_concat _, ?_⟩
  simp only [List.filterMap_append, List.filterMap_map]
  rw [show (chunkPayload ∘ ChatEvent.chunk) = fun c => some c from rfl,
    List.filterMap_some]
  simp [chunkPayload]

/-- Witness for C5: with two chunks "Hel", "lo" the `done` event carries
"Hello". -/
theorem handleChatStream_done_fullContent_witness :
    ("What is DeFi?" : String) ≠ "" ∧
    ((fun (_ : String) (_ : String) => StreamBehavior.mk ["Hel", "lo"] none)
        "What is DeFi?"
        (combinedContextOf (.ok []) (Web3Context.mk "ctx" []))).failure = none ∧
    ∃ events, handleChatStream "What is DeFi?" (.ok []) (Web3Context.mk "ctx" [])
        (fun _ _ => StreamBehavior.mk ["Hel", "lo"] none) = Except.ok events ∧
      ∃ fullContent,
        events.getLast? = some (ChatEvent.done "Response complete" fullContent) ∧
        fullContent = accumulateChunks (events.filterMap chunkPayload) :=
  ⟨by decide, rfl,
    handleChatStream_done_fullContent "What is DeFi?" (.ok [])
      (Web3Context.mk "ctx" []) (fun _ _ => StreamBehavior.mk ["Hel", "lo"] none)
      (by decide) rfl⟩

/-! ## Claim C6: query expansion returns distinct variants, original first -/

/-- The template loop only appends to the accumulated variant list. -/
theorem foldl_addVariant_append (mv : Nat) (ts : List String) :
    ∀ acc : List String, ∃ suffix, ts.foldl (addVariant mv) acc = acc ++ suffix := by
  induction ts with
  | nil => intro acc; exact ⟨[], by simp⟩
  | cons t ts ih =>
    intro acc
    rw [List.foldl_cons]
    by_cases h1 : mv ≤ acc.length
    · rw [show addVariant mv acc t = acc from by simp [addVariant, h1]]
      exact ih acc
    · by_cases h2 : t ∈ acc
      · rw [show addVariant mv acc t = acc from by simp [addVariant, h1, h2]]
        exact ih acc
      · rw [show addVariant mv acc t = acc ++ [t] from by simp [addVariant, h1, h2]]
        obtain ⟨suffix, hsuffix⟩ := ih (acc ++ [t])
        exact ⟨[t] ++ suffix, by simpa using hsuffix⟩

/-- The template loop preserves freedom from duplicates. -/
theorem foldl_addVariant_nodup (mv : Nat) (ts : List String) :
    ∀ acc : List String, acc.Nodup → (ts.foldl (addVariant mv) acc).Nodup := by
  induction ts with
  | nil => intro acc h; simpa using h
  | cons t ts ih =>
    intro acc h
    rw [List.foldl_cons]
    by_cases h1 : mv ≤ acc.length
    · rw [show addVariant mv acc t = acc from by simp [addVariant, h1]]
      exact ih acc h
    · by_cases h2 : t ∈ acc
      · rw [show addVariant mv acc t = acc from by simp [addVariant, h1, h2]]
        exact ih acc h
      · rw [show addVariant mv acc t = acc ++ [t] from by simp [addVariant, h1, h2]]
        refine ih (acc ++ [t]) ?_
        simp [List.nodup_append, h, h2]

/-- Structure of `generateQueryVariants` on a non-blank query: it is a
truncation of a duplicate-free list headed by the trimmed query. -/
theorem generateQueryVariants_shape (query : String) (maxVariants : Nat)
    (hq : jsTrim query ≠ "") :
    ∃ rest : List String,
      generateQueryVariants query maxVariants =
        (jsTrim query :: rest).take maxVariants ∧
      (jsTrim query :: rest).Nodup := by
  unfold generateQueryVariants
  rw [if_neg hq]
  dsimp only
  obtain ⟨s1, hs1⟩ := foldl_addVariant_append maxVariants
    (variantTemplates (stripTrailingQM (jsTrim query))) [jsTrim query]
  have hs1c : (variantTemplates (stripTrailingQM (jsTrim query))).foldl
      (addVariant maxVariants) [jsTrim query] = jsTrim query :: s1 := by
    simpa using hs1
  have hnodup1 : (jsTrim query :: s1).Nodup := by
    rw [← hs1c]
    exact foldl_addVariant_nodup maxVariants _ [jsTrim query] (by simp)
  split
  · split
    · exact ⟨s1, by rw [hs1c], hnodup1⟩
    · rename_i hcond hnotcontains
      rw [hs1c] at hnotcontains
      have hnotmem : stripTrailingQM (jsTrim query) ∉ jsTrim query :: s1 := by
        simpa using hnotcontains
      refine ⟨s1 ++ [stripTrailingQM (jsTrim query)], by rw [hs1c]; simp, ?_⟩
      rw [show jsTrim query :: (s1 ++ [stripTrailingQM (jsTrim query)]) =
        (jsTrim query :: s1) ++ [stripTrailingQM (jsTrim query)] from by simp]
      refine List.nodup_append.mpr ⟨hnodup1, by simp, ?_⟩
      intro a ha hmem
      simp at hmem
      rw [hmem] at ha
      exact hnotmem ha
  · exact ⟨s1, by rw [hs1c], hnodup1⟩

/-- C6: `expand("What is DeFi?", 3)` returns exactly the three distinct
strings below, headed by the original query; and in general, for a query
with non-blank trimmed form and `maxVariants ≥ 1`, the variants are
pairwise distinct, number at most `maxVariants`, and start with the
trimmed original query. -/
theorem generateQueryVariants_spec :
    generateQueryVariants "What is DeFi?" 3 =
      ["What is DeFi?", "What is What is DeFi?", "Explain What is DeFi"] ∧
    ∀ (query : String) (maxVariants : Nat),
      jsTrim query ≠ "" → 1 ≤ maxVariants →
      (generateQueryVariants query maxVariants).head? = some (jsTrim query) ∧
      (generateQueryVariants query maxVariants).Nodup ∧
      (generateQueryVariants query maxVariants).length ≤ maxVariants := by
  constructor
  · decide
  · intro query maxVariants hq hmv
    obtain ⟨rest, hshape, hnodup⟩ := generateQueryVariants_shape query maxVariants hq
    rw [hshape]
    obtain ⟨k, rfl⟩ : ∃ k, maxVariants = k + 1 :=
      ⟨maxVariants - 1, by omega⟩
    refine ⟨by simp, ?_, List.length_take_le _ _⟩
    exact hnodup.sublist (List.take_sublist _ _)

/-- Witness for C6 at the concrete query of the claim. -/
theorem generateQueryVariants_spec_witness :
    generateQueryVariants "What is DeFi?" 3 =
      ["What is DeFi?", "What is What is DeFi?", "Explain What is DeFi"] ∧
    (jsTrim "What is DeFi?" ≠ "" ∧ 1 ≤ 3 ∧
      (generateQueryVariants "What is DeFi?" 3).head? = some (jsTrim "What is DeFi?") ∧
      (generateQueryVariants "What is DeFi?" 3).Nodup ∧
      (generateQueryVariants "What is DeFi?" 3).length ≤ 3) :=
  ⟨generateQueryVariants_spec.1,
    by decide, by decide,
    (generateQueryVariants_spec.2 "What is DeFi?" 3 (by decide) (by decide)).1,
    (generateQueryVariants_spec.2 "What is DeFi?" 3 (by decide) (by decide)).2.1,
    (generateQueryVariants_spec.2 "What is DeFi?" 3 (by decide) (by decide)).2.2⟩

/-! ## Fusion machinery: properties of the sort and of the results map -/

/-- Membership in the stable descending insertion. -/
theorem mem_insertBySimDesc (r a : SearchRow) (l : List SearchRow) :
    a ∈ insertBySimDesc r l ↔ a = r ∨ a ∈ l := by
  induction l with
  | nil => simp [insertBySimDesc]
  | cons x xs ih =>
    unfold insertBySimDesc
    split
    · simp
    · simp [ih]
      tauto

/-- Membership in the similarity-descending sort. -/
theorem mem_sortBySimDesc (a : SearchRow) (l : List SearchRow) :
    a ∈ sortBySimDesc l ↔ a ∈ l := by
  induction l with
  | nil => simp [sortBySimDesc]
  | cons x xs ih => simp [sortBySimDesc, mem_insertBySimDesc, ih]

/-- Inserting preserves the similarity-descending pairwise order. -/
theorem pairwise_insertBySimDesc (r : SearchRow) (l : List SearchRow)
    (h : l.Pairwise (fun a b => b.similarity ≤ a.similarity)) :
    (insertBySimDesc r l).Pairwise (fun a b => b.similarity ≤ a.similarity) := by
  induction l with
  | nil => simp [insertBySimDesc]
  | cons x xs ih =>
    unfold insertBySimDesc
    rw [List.pairwise_cons] at h
    split
    · rename_i hlt
      refine List.pairwise_cons.mpr ⟨?_, List.pairwise_cons.mpr h⟩
      intro a ha
      rcases List.mem_cons.mp ha with rfl | ha2
      · exact le_of_lt hlt
      · exact le_trans (h.1 a ha2) (le_of_lt hlt)
    · rename_i hnlt
      refine List.pairwise_cons.mpr ⟨?_, ih h.2⟩
      intro a ha
      rcases (mem_insertBySimDesc r a xs).mp ha with rfl | ha2
      · exact le_of_not_lt hnlt
      · exact h.1 a ha2

/-- The sort produces a similarity-descending list. -/
theorem pairwise_sortBySimDesc (l : List SearchRow) :
    (sortBySimDesc l).Pairwise (fun a b => b.similarity ≤ a.similarity) := by
  induction l with
  | nil => simp [sortBySimDesc]
  | cons x xs ih => exact pairwise_insertBySimDesc x (sortBySimDesc xs) ih

/-- The insertion is a permutation of consing. -/
theorem insertBySimDesc_perm (r : SearchRow) (l : List SearchRow) :
    (insertBySimDesc r l).Perm (r :: l) := by
  induction l with
  | nil => simp [insertBySimDesc]
  | cons x xs ih =>
    unfold insertBySimDesc
    split
    · exact List.Perm.refl _
    · exact ((ih.cons x).trans (List.Perm.swap r x xs))

/-- The sort is a permutation of its input. -/
theorem sortBySimDesc_perm (l : List SearchRow) :
    (sortBySimDesc l).Perm l := by
  induction l with
  | nil => simp [sortBySimDesc]
  | cons x xs ih => exact (insertBySimDesc_perm x (sortBySimDesc xs)).trans (ih.cons x)

/-- One `resultsMap` update preserves the fusion invariants: every map
entry is a row seen so far and dominates (by similarity) every seen row
with its id, every seen id has an entry, and ids stay duplicate-free. -/
theorem upsertResult_invariant (m seen : List SearchRow) (x : SearchRow)
    (h1 : ∀ r ∈ m, r ∈ seen)
    (h2 : ∀ r ∈ m, ∀ s ∈ seen, s.id = r.id → s.similarity ≤ r.similarity)
    (h3 : ∀ s ∈ seen, ∃ r ∈ m, r.id = s.id)
    (h4 : (m.map SearchRow.id).Nodup) :
    (∀ r ∈ upsertResult m x, r ∈ seen ++ [x]) ∧
    (∀ r ∈ upsertResult m x, ∀ s ∈ seen ++ [x],
      s.id = r.id → s.similarity ≤ r.similarity) ∧
    (∀ s ∈ seen ++ [x], ∃ r ∈ upsertResult m x, r.id = s.id) ∧
    ((upsertResult m x).map SearchRow.id).Nodup := by
  cases hfind : m.find? (fun e => e.id == x.id) with
  | none =>
    have hup : upsertResult m x = m ++ [x] := by
      simp only [upsertResult, hfind]
    have hno : ∀ e ∈ m, e.id ≠ x.id := by
      intro e he heq
      have := List.find?_eq_none.mp hfind e he
      simp [heq] at this
    rw [hup]
    refine ⟨?_, ?_, ?_, ?_⟩
    · intro r hr
      rcases List.mem_append.mp hr with hrm | hrx
      · exact List.mem_append.mpr (Or.inl (h1 r hrm))
      · exact List.mem_append.mpr (Or.inr hrx)
    · intro r hr s hs heq
      rcases List.mem_append.mp hr with hrm | hrx
      · rcases List.mem_append.mp hs with hss | hsx
        · exact h2 r hrm s hss heq
        · rw [List.mem_singleton.mp hsx] at heq
          exact absurd heq.symm (hno r hrm)
      · rw [List.mem_singleton.mp hrx]
        rcases List.mem_append.mp hs with hss | hsx
        · obtain ⟨e, he, heid⟩ := h3 s hss
          rw [List.mem_singleton.mp hrx] at heq
          exact absurd (heid.trans heq) (hno e he)
        · rw [List.mem_singleton.mp hsx]
    · intro s hs
      rcases List.mem_append.mp hs with hss | hsx
      · obtain ⟨e, he, heid⟩ := h3 s hss
        exact ⟨e, List.mem_append.mpr (Or.inl he), heid⟩
      · exact ⟨x, List.mem_append.mpr (Or.inr (List.mem_singleton.mpr rfl)),
          by rw [List.mem_singleton.mp hsx]⟩
    · rw [List.map_append]
      refine List.nodup_append.mpr ⟨h4, by simp, ?_⟩
      intro a ha hmem
      simp at hmem
      obtain ⟨e, he, heid⟩ := List.mem_map.mp ha
      exact hno e he (by rw [heid, hmem])
  | some existing =>
    have he : existing ∈ m := List.mem_of_find?_eq_some hfind
    have heid : existing.id = x.id := by
      have := List.find?_some hfind
      simpa using this
    have hinj : ∀ a ∈ m, ∀ b ∈ m, a.id = b.id → a = b :=
      List.inj_on_of_nodup_map h4
    by_cases hlt : existing.similarity < x.similarity
    · have hup : upsertResult m x =
          m.map (fun e => if e.id == x.id then x else e) := by
        simp only [upsertResult, hfind, if_pos hlt]
      have hg : ∀ r ∈ m, (if r.id == x.id then x else r).id = r.id := by
        intro r hr
        by_cases hrx : r.id = x.id
        · simp [hrx]
        · simp [hrx]
      rw [hup]
      refine ⟨?_, ?_, ?_, ?_⟩
      · intro r hr
        obtain ⟨r0, hr0, rfl⟩ := List.mem_map.mp hr
        by_cases hrx : r0.id = x.id
        · simp only [hrx, beq_self_eq_true, if_true]
          exact List.mem_append.mpr (Or.inr (List.mem_singleton.mpr rfl))
        · simp only [beq_iff_eq, hrx, if_false]
          exact List.mem_append.mpr (Or.inl (h1 r0 hr0))
      · intro r hr s hs heq
        obtain ⟨r0, hr0, rfl⟩ := List.mem_map.mp hr
        by_cases hrx : r0.id = x.id
        · simp only [hrx, beq_self_eq_true, if_true] at heq ⊢
          rcases List.mem_append.mp hs with hss | hsx
          · have hse : s.similarity ≤ existing.similarity :=
              h2 existing he s hss (heq.trans heid.symm)
            exact le_trans hse (le_of_lt hlt)
          · rw [List.mem_singleton.mp hsx]
        · simp only [beq_iff_eq, hrx, if_false] at heq ⊢
          rcases List.mem_append.mp hs with hss | hsx
          · exact h2 r0 hr0 s hss heq
          · rw [List.mem_singleton.mp hsx] at heq
            exact absurd heq.symm hrx
      · intro s hs
        rcases List.mem_append.mp hs with hss | hsx
        · obtain ⟨e, hem, heid2⟩ := h3 s hss
          refine ⟨if e.id == x.id then x else e, List.mem_map_of_mem _ hem, ?_⟩
          rw [hg e hem, heid2]
        · refine ⟨if existing.id == x.id then x else existing,
            List.mem_map_of_mem _ he, ?_⟩
          rw [hg existing he, heid, List.mem_singleton.mp hsx]
      · have hmaps : (m.map (fun e => if e.id == x.id then x else e)).map
            SearchRow.id = m.map SearchRow.id := by
          rw [List.map_map]
          exact List.map_congr_left hg
        rw [hmaps]
        exact h4
    · have hup : upsertResult m x = m := by
        simp only [upsertResult, hfind, if_neg hlt]
      rw [hup]
      refine ⟨fun r hr => List.mem_append.mpr (Or.inl (h1 r hr)), ?_, ?_, h4⟩
      · intro r hr s hs heq
        rcases List.mem_append.mp hs with hss | hsx
        · exact h2 r hr s hss heq
        · rw [List.mem_singleton.mp hsx] at heq ⊢
          have hre : r = existing := hinj r hr existing he (heq.symm.trans heid.symm)
          rw [hre]
          exact le_of_not_lt hlt
      · intro s hs
        rcases List.mem_append.mp hs with hss | hsx
        · exact h3 s hss
        · exact ⟨existing, he, by rw [heid, List.mem_singleton.mp hsx]⟩

/-- Folding `upsertResult` over a row list maintains the fusion
invariants relative to the rows already seen. -/
theorem upsertFold_invariant (rows : List SearchRow) :
    ∀ (m seen : List SearchRow),
    (∀ r ∈ m, r ∈ seen) →
    (∀ r ∈ m, ∀ s ∈ seen, s.id = r.id → s.similarity ≤ r.similarity) →
    (∀ s ∈ seen, ∃ r ∈ m, r.id = s.id) →
    ((m.map SearchRow.id).Nodup) →
    (∀ r ∈ rows.foldl upsertResult m, r ∈ seen ++ rows) ∧
    (∀ r ∈ rows.foldl upsertResult m, ∀ s ∈ seen ++ rows,
      s.id = r.id → s.similarity ≤ r.similarity) ∧
    (∀ s ∈ seen ++ rows, ∃ r ∈ rows.foldl upsertResult m, r.id = s.id) ∧
    ((rows.foldl upsertResult m).map SearchRow.id).Nodup := by
  induction rows with
  | nil =>
    intro m seen h1 h2 h3 h4
    simpa using ⟨h1, h2, h3, h4⟩
  | cons x rows ih =>
    intro m seen h1 h2 h3 h4
    obtain ⟨g1, g2, g3, g4⟩ := upsertResult_invariant m seen x h1 h2 h3 h4
    obtain ⟨f1, f2, f3, f4⟩ := ih (upsertResult m x) (seen ++ [x]) g1 g2 g3 g4
    rw [List.foldl_cons]
    have hsplit : seen ++ x :: rows = (seen ++ [x]) ++ rows := by simp
    rw [hsplit]
    exact ⟨f1, f2, f3, f4⟩

/-- The fused map is a subset of the processed rows, dominates every
processed row of the same id, covers every processed id, and has
duplicate-free ids. -/
theorem upsertFold_spec (rows : List SearchRow) :
    (∀ r ∈ rows.foldl upsertResult [], r ∈ rows) ∧
    (∀ r ∈ rows.foldl upsertResult [], ∀ s ∈ rows,
      s.id = r.id → s.similarity ≤ r.similarity) ∧
    (∀ s ∈ rows, ∃ r ∈ rows.foldl upsertResult [], r.id = s.id) ∧
    ((rows.foldl upsertResult []).map SearchRow.id).Nodup := by
  have h := upsertFold_invariant rows [] [] (by simp) (by simp) (by simp) (by simp)
  simpa using h

/-- Each `upsertResult` grows the map by at most one entry. -/
theorem length_upsertResult (m : List SearchRow) (x : SearchRow) :
    (upsertResult m x).length ≤ m.length + 1 := by
  cases hfind : m.find? (fun e => e.id == x.id) with
  | none => simp [upsertResult, hfind]
  | some existing =>
    by_cases hlt : existing.similarity < x.similarity
    · simp [upsertResult, hfind, if_pos hlt]
    · simp [upsertResult, hfind, if_neg hlt]

/-- The fused map has at most as many entries as processed rows. -/
theorem length_upsertFold (rows : List SearchRow) :
    ∀ m : List SearchRow,
      (rows.foldl upsertResult m).length ≤ m.length + rows.length := by
  induction rows with
  | nil => intro m; simp
  | cons x rows ih =>
    intro m
    rw [List.foldl_cons]
    calc (rows.foldl upsertResult (upsertResult m x)).length
        ≤ (upsertResult m x).length + rows.length := ih (upsertResult m x)
      _ ≤ (m.length + 1) + rows.length := by
          have := length_upsertResult m x
          omega
      _ = m.length + (x :: rows).length := by rw [List.length_cons]; omega

/-- The nested per-variant fold of `searchSimilar` equals one fold over
the concatenation of all variants' result lists. -/
theorem foldl_upsert_flatten (L : List (List SearchRow)) :
    ∀ m : List SearchRow,
      L.foldl (fun acc rows => rows.foldl upsertResult acc) m =
        L.flatten.foldl upsertResult m := by
  induction L with
  | nil => intro m; simp
  | cons rows L ih =>
    intro m
    rw [List.foldl_cons, List.flatten_cons, List.foldl_append]
    exact ih (rows.foldl upsertResult m)

/-- Every row returned by the per-variant SQL statement passes the
similarity threshold of its WHERE clause. -/
theorem sqlSimilaritySearch_threshold (table : List StoredRow)
    (queryEmbedding : List ℚ) (cosSim : List ℚ → List ℚ → ℚ)
    (minSimilarity : ℚ) (limit : Nat) (conds : List FilterCondition) :
    ∀ r ∈ sqlSimilaritySearch table queryEmbedding cosSim minSimilarity limit conds,
      minSimilarity ≤ r.similarity := by
  intro r hr
  unfold sqlSimilaritySearch at hr
  have hr2 := (List.take_sublist _ _).mem hr
  rw [mem_sortBySimDesc] at hr2
  obtain ⟨row, hrow, rfl⟩ := List.mem_map.mp hr2
  have hpass := (List.mem_filter.mp hrow).2
  simp only [Bool.and_eq_true, decide_eq_true_eq] at hpass
  exact hpass.1

/-- Successful searches compute exactly: fuse all variants' rows with the
max-keeping map, sort by similarity descending, truncate to `limit`. -/
theorem searchSimilar_ok_eq (table : List StoredRow)
    (embedOf : String → List ℚ) (cosSim : List ℚ → List ℚ → ℚ)
    (query : String) (limit : Nat) (minSimilarity : ℚ)
    (metadataFilter : List (String × JSValue)) (expansionEnabled : Bool)
    (maxVariantsEnv : Nat) (hq : jsTrim query ≠ "") :
    searchSimilar table embedOf cosSim query limit minSimilarity
        metadataFilter expansionEnabled maxVariantsEnv =
      .ok ((sortBySimDesc
        ((allVariantRows table embedOf cosSim query limit minSimilarity
          metadataFilter expansionEnabled maxVariantsEnv).foldl upsertResult [])).take
        limit) := by
  unfold searchSimilar allVariantRows
  rw [if_neg hq, ← foldl_upsert_flatten, List.foldl_map]

/-! ## Claim C3: results sorted descending, at most `limit`, above threshold -/

/-- C3: every result list returned by `searchSimilar` is ordered by
similarity descending, has at most `limit` elements, and every element's
similarity is at least the caller-supplied `minSimilarity` (enforced
per-variant by the SQL WHERE clause and preserved by fusion). -/
theorem searchSimilar_sorted_bounded_threshold (table : List StoredRow)
    (embedOf : String → List ℚ) (cosSim : List ℚ → List ℚ → ℚ)
    (query : String) (limit : Nat) (minSimilarity : ℚ)
    (metadataFilter : List (String × JSValue)) (expansionEnabled : Bool)
    (maxVariantsEnv : Nat) (res : List SearchRow)
    (h : searchSimilar table embedOf cosSim query limit minSimilarity
        metadataFilter expansionEnabled maxVariantsEnv = .ok res) :
    res.Pairwise (fun a b => b.similarity ≤ a.similarity) ∧
    res.length ≤ limit ∧
    (∀ r ∈ res, minSimilarity ≤ r.similarity) := by
  by_cases hq : jsTrim query = ""
  · unfold searchSimilar at h
    rw [if_pos hq] at h
    simp at h
  · rw [searchSimilar_ok_eq table embedOf cosSim query limit minSimilarity
      metadataFilter expansionEnabled maxVariantsEnv hq] at h
    injection h with h
    subst h
    refine ⟨(pairwise_sortBySimDesc _).sublist (List.take_sublist _ _),
      List.length_take_le _ _, ?_⟩
    intro r hr
    have hr2 := (List.take_sublist _ _).mem hr
    rw [mem_sortBySimDesc] at hr2
    have hr3 := (upsertFold_spec _).1 r hr2
    unfold allVariantRows at hr3
    obtain ⟨rows, hrowsmem, hrmem⟩ := List.mem_flatten.mp hr3
    obtain ⟨v, hv, rfl⟩ := List.mem_map.mp hrowsmem
    exact sqlSimilaritySearch_threshold _ _ _ _ _ _ r hrmem

/-- Three-row example table used to exercise the fusion pipeline. -/
def fusionExTable : List StoredRow :=
  [StoredRow.mk 1 "doc A" [] [mkRat 1 1],
   StoredRow.mk 2 "doc B" [] [mkRat 2 1],
   StoredRow.mk 3 "doc C" [] [mkRat 3 1]]

/-- Example embedding oracle: one vector per query variant. -/
def fusionExEmbed (v : String) : List ℚ :=
  if v = "DeFi" then [mkRat 10 1] else [mkRat 20 1]

/-- Example cosine oracle: similarities of each stored embedding against
each variant embedding. -/
def fusionExCos (q e : List ℚ) : ℚ :=
  if q = [mkRat 10 1] then
    (if e = [mkRat 1 1] then mkRat 19 20
     else if e = [mkRat 2 1] then mkRat 7 10 else mkRat 1 10)
  else
    (if e = [mkRat 1 1] then mkRat 1 10
     else if e = [mkRat 2 1] then mkRat 4 5 else mkRat 9 10)

/-- Witness for C3: the two-variant search over the three-row example
table returns a descending, truncated, above-threshold list. -/
theorem searchSimilar_sorted_bounded_threshold_witness :
    searchSimilar fusionExTable fusionExEmbed fusionExCos "DeFi" 2 (mkRat 1 2)
        [] true 2 =
      .ok [SearchRow.mk 1 "doc A" [] (mkRat 19 20),
           SearchRow.mk 3 "doc C" [] (mkRat 9 10)] ∧
    ([SearchRow.mk 1 "doc A" [] (mkRat 19 20),
      SearchRow.mk 3 "doc C" [] (mkRat 9 10)].Pairwise
        (fun a b => b.similarity ≤ a.similarity) ∧
     [SearchRow.mk 1 "doc A" [] (mkRat 19 20),
      SearchRow.mk 3 "doc C" [] (mkRat 9 10)].length ≤ 2 ∧
     (∀ r ∈ [SearchRow.mk 1 "doc A" [] (mkRat 19 20),
        SearchRow.mk 3 "doc C" [] (mkRat 9 10)], mkRat 1 2 ≤ r.similarity)) :=
  ⟨rfl,
    searchSimilar_sorted_bounded_threshold fusionExTable fusionExEmbed fusionExCos
      "DeFi" 2 (mkRat 1 2) [] true 2
      [SearchRow.mk 1 "doc A" [] (mkRat 19 20),
       SearchRow.mk 3 "doc C" [] (mkRat 9 10)] rfl⟩

/-! ## Claim C2: fusion keeps the maximum similarity per id -/

/-- Counterexample to C2 as stated: in the two-variant search over the
example table with `limit = 2`, stored id 2 appears in both variants'
per-variant results (with similarities 7/10 and 4/5), yet the merged
result returned by `searchSimilar` does not contain id 2 at all — the
fused entry for id 2 (similarity 4/5) is cut by the final truncation to
`limit`, because ids 1 and 3 fused with higher similarities. -/
theorem searchSimilar_fusion_containment_counterexample :
    variantQueries "DeFi" true 2 = ["DeFi", "What is DeFi?"] ∧
    ((sqlSimilaritySearch fusionExTable (fusionExEmbed "DeFi") fusionExCos
        (mkRat 1 2) 2 []).map (fun r => (r.id, r.similarity))) =
      [(1, mkRat 19 20), (2, mkRat 7 10)] ∧
    ((sqlSimilaritySearch fusionExTable (fusionExEmbed "What is DeFi?") fusionExCos
        (mkRat 1 2) 2 []).map (fun r => (r.id, r.similarity))) =
      [(3, mkRat 9 10), (2, mkRat 4 5)] ∧
    searchSimilar fusionExTable fusionExEmbed fusionExCos "DeFi" 2 (mkRat 1 2)
        [] true 2 =
      .ok [SearchRow.mk 1 "doc A" [] (mkRat 19 20),
           SearchRow.mk 3 "doc C" [] (mkRat 9 10)] ∧
    (([SearchRow.mk 1 "doc A" [] (mkRat 19 20),
       SearchRow.mk 3 "doc C" [] (mkRat 9 10)].map SearchRow.id).contains 2 =
      false) :=
  ⟨by decide, by decide, by decide, rfl, by decide⟩

/-- C2 (amended): the result of `searchSimilar` mentions each stored id
at most once; every returned entry is one of the per-variant result rows
and carries the maximum similarity observed for its id across all
variants (not the average or the sum); and whenever the final truncation
cannot drop anything (total per-variant row count at most `limit`), every
id found by any variant appears (exactly once) in the result. -/
theorem searchSimilar_fusion_max_similarity (table : List StoredRow)
    (embedOf : String → List ℚ) (cosSim : List ℚ → List ℚ → ℚ)
    (query : String) (limit : Nat) (minSimilarity : ℚ)
    (metadataFilter : List (String × JSValue)) (expansionEnabled : Bool)
    (maxVariantsEnv : Nat) (res : List SearchRow)
    (h : searchSimilar table embedOf cosSim query limit minSimilarity
        metadataFilter expansionEnabled maxVariantsEnv = .ok res) :
    ((res.map SearchRow.id).Nodup) ∧
    (∀ r ∈ res,
      r ∈ allVariantRows table embedOf cosSim query limit minSimilarity
        metadataFilter expansionEnabled maxVariantsEnv ∧
      ∀ s ∈ allVariantRows table embedOf cosSim query limit minSimilarity
          metadataFilter expansionEnabled maxVariantsEnv,
        s.id = r.id → s.similarity ≤ r.similarity) ∧
    ((allVariantRows table embedOf cosSim query limit minSimilarity
        metadataFilter expansionEnabled maxVariantsEnv).length ≤ limit →
      ∀ s ∈ allVariantRows table embedOf cosSim query limit minSimilarity
          metadataFilter expansionEnabled maxVariantsEnv,
        ∃ r ∈ res, r.id = s.id) := by
  by_cases hq : jsTrim query = ""
  · unfold searchSimilar at h
    rw [if_pos hq] at h
    simp at h
  · rw [searchSimilar_ok_eq table embedOf cosSim query limit minSimilarity
      metadataFilter expansionEnabled maxVariantsEnv hq] at h
    injection h with h
    subst h
    obtain ⟨m1, m2, m3, m4⟩ := upsertFold_spec
      (allVariantRows table embedOf cosSim query limit minSimilarity
        metadataFilter expansionEnabled maxVariantsEnv)
    refine ⟨?_, ?_, ?_⟩
    · have hsort : ((sortBySimDesc
          ((allVariantRows table embedOf cosSim query limit minSimilarity
            metadataFilter expansionEnabled maxVariantsEnv).foldl upsertResult
            [])).map SearchRow.id).Nodup :=
        (((sortBySimDesc_perm _).map SearchRow.id).nodup_iff).mpr m4
      rw [List.map_take]
      exact hsort.sublist (List.take_sublist _ _)
    · intro r hr
      have hr2 := (List.take_sublist _ _).mem hr
      rw [mem_sortBySimDesc] at hr2
      exact ⟨m1 r hr2, m2 r hr2⟩
    · intro hlen s hs
      have hMlen : (sortBySimDesc
          ((allVariantRows table embedOf cosSim query limit minSimilarity
            metadataFilter expansionEnabled maxVariantsEnv).foldl upsertResult
            [])).length ≤ limit := by
        rw [(sortBySimDesc_perm _).length_eq]
        have := length_upsertFold
          (allVariantRows table embedOf cosSim query limit minSimilarity
            metadataFilter expansionEnabled maxVariantsEnv) []
        simp at this
        omega
      rw [List.take_of_length_le hMlen]
      obtain ⟨r, hrM, hrid⟩ := m3 s hs
      exact ⟨r, (mem_sortBySimDesc r _).mpr hrM, hrid⟩

/-- Witness for C2 (amended) at the example search: id 2, found by both
variants with similarities 7/10 and 4/5, fuses to 4/5 (the maximum). -/
theorem searchSimilar_fusion_max_similarity_witness :
    ((([SearchRow.mk 1 "doc A" [] (mkRat 19 20),
        SearchRow.mk 3 "doc C" [] (mkRat 9 10)]).map SearchRow.id).Nodup) ∧
    (∀ r ∈ [SearchRow.mk 1 "doc A" [] (mkRat 19 20),
        SearchRow.mk 3 "doc C" [] (mkRat 9 10)],
      r ∈ allVariantRows fusionExTable fusionExEmbed fusionExCos "DeFi" 2
        (mkRat 1 2) [] true 2 ∧
      ∀ s ∈ allVariantRows fusionExTable fusionExEmbed fusionExCos "DeFi" 2
          (mkRat 1 2) [] true 2,
        s.id = r.id → s.similarity ≤ r.similarity) ∧
    ((allVariantRows fusionExTable fusionExEmbed fusionExCos "DeFi" 2
        (mkRat 1 2) [] true 2).length ≤ 2 →
      ∀ s ∈ allVariantRows fusionExTable fusionExEmbed fusionExCos "DeFi" 2
          (mkRat 1 2) [] true 2,
        ∃ r ∈ [SearchRow.mk 1 "doc A" [] (mkRat 19 20),
          SearchRow.mk 3 "doc C" [] (mkRat 9 10)], r.id = s.id) :=
  searchSimilar_fusion_max_similarity fusionExTable fusionExEmbed fusionExCos
    "DeFi" 2 (mkRat 1 2) [] true 2
    [SearchRow.mk 1 "doc A" [] (mkRat 19 20),
     SearchRow.mk 3 "doc C" [] (mkRat 9 10)] rfl

/-! ## Claim C7: invalid filter entries are silently dropped -/

/-- The recognized operator shapes of the claim: `$in` with a non-empty
array, `$like`/`$ilike` with a string, `$exists`. -/
def recognizedOpShape (op : String) (opValue : JSValue) : Bool :=
  (op == "$in" && (match opValue with
    | .arr elems => !elems.isEmpty
    | _ => false)) ||
  ((op == "$like" || op == "$ilike") && (match opValue with
    | .str _ => true
    | _ => false)) ||
  (op == "$exists")

/-- A filter entry the claim says is dropped: null/undefined value,
invalid key, or an operator object none of whose operators has a
recognized shape. -/
def invalidFilterEntry (entry : String × JSValue) : Bool :=
  match entry.2 with
  | .null => true
  | .undefined => true
  | .obj fields =>
    !(isValidKey entry.1) ||
      fields.all (fun f => !(recognizedOpShape f.1 f.2))
  | _ => !(isValidKey entry.1)

/-- An unrecognized operator contributes no condition. -/
theorem opConditions_unrecognized (key op : String) (opValue : JSValue)
    (h : recognizedOpShape op opValue = false) :
    opConditions key op opValue = [] := by
  by_cases h4 : op = "$exists"
  · subst h4
    exfalso
    have htrue : recognizedOpShape "$exists" opValue = true := by
      unfold recognizedOpShape
      simp
    rw [htrue] at h
    cases h
  · by_cases h1 : op = "$in"
    · subst h1
      unfold opConditions
      rw [if_pos (by simp)]
      cases opValue with
      | arr elems =>
        cases elems with
        | nil => rfl
        | cons a as =>
          exfalso
          have htrue : recognizedOpShape "$in" (.arr (a :: as)) = true := rfl
          rw [htrue] at h
          cases h
      | null => rfl
      | undefined => rfl
      | str s => rfl
      | num q => rfl
      | bool b => rfl
      | obj fields => rfl
    · by_cases h2 : op = "$like"
      · subst h2
        unfold opConditions
        rw [if_neg (by simp), if_pos (by simp)]
        cases opValue with
        | str s =>
          exfalso
          have htrue : recognizedOpShape "$like" (.str s) = true := rfl
          rw [htrue] at h
          cases h
        | null => rfl
        | undefined => rfl
        | num q => rfl
        | bool b => rfl
        | arr elems => rfl
        | obj fields => rfl
      · by_cases h3 : op = "$ilike"
        · subst h3
          unfold opConditions
          rw [if_neg (by simp), if_pos (by simp)]
          cases opValue with
          | str s =>
            exfalso
            have htrue : recognizedOpShape "$ilike" (.str s) = true := rfl
            rw [htrue] at h
            cases h
          | null => rfl
          | undefined => rfl
          | num q => rfl
          | bool b => rfl
          | arr elems => rfl
          | obj fields => rfl
        · unfold opConditions
          rw [if_neg (by simp [h1]), if_neg (by simp [h2, h3]),
            if_neg (by simp [h4])]

/-- An entry the claim marks invalid contributes no condition. -/
theorem entryConditions_invalid (entry : String × JSValue)
    (h : invalidFilterEntry entry = true) :
    entryConditions entry = [] := by
  obtain ⟨key, value⟩ := entry
  cases value with
  | null => rfl
  | undefined => rfl
  | str s =>
    have hk : isValidKey key = false := by
      simpa [invalidFilterEntry] using h
    simp [entryConditions, hk]
  | num q =>
    have hk : isValidKey key = false := by
      simpa [invalidFilterEntry] using h
    simp [entryConditions, hk]
  | bool b =>
    have hk : isValidKey key = false := by
      simpa [invalidFilterEntry] using h
    simp [entryConditions, hk]
  | arr elems =>
    have hk : isValidKey key = false := by
      simpa [invalidFilterEntry] using h
    simp [entryConditions, hk]
  | obj fields =>
    simp only [invalidFilterEntry, Bool.or_eq_true, Bool.not_eq_eq_eq_not,
      Bool.not_true] at h
    rcases h with hk | hall
    · simp [entryConditions, hk]
    · by_cases hk : isValidKey key
      · have hfields : ∀ f ∈ fields, opConditions key f.1 f.2 = [] := by
          intro f hf
          refine opConditions_unrecognized key f.1 f.2 ?_
          have := List.all_eq_true.mp hall f hf
          simpa using this
        have hrw : entryConditions (key, JSValue.obj fields) =
            (fields.map (fun f => opConditions key f.1 f.2)).flatten := by
          simp [entryConditions, hk]
        rw [hrw, List.flatten_eq_nil_iff]
        intro l hl
        obtain ⟨f, hf, rfl⟩ := List.mem_map.mp hl
        exact hfields f hf
      · simp [entryConditions, hk]

/-- Dropping the invalid entries does not change the compiled filter. -/
theorem buildMetadataFilter_drops_invalid_eq
    (metadataFilter : List (String × JSValue)) :
    buildMetadataFilter metadataFilter =
      buildMetadataFilter (metadataFilter.filter
        (fun e => !(invalidFilterEntry e))) := by
  induction metadataFilter with
  | nil => rfl
  | cons e rest ih =>
    by_cases he : invalidFilterEntry e
    · rw [show (e :: rest).filter (fun e => !(invalidFilterEntry e)) =
          rest.filter (fun e => !(invalidFilterEntry e)) from by simp [he]]
      unfold buildMetadataFilter
      rw [List.map_cons, List.flatten_cons, entryConditions_invalid e he]
      simpa [buildMetadataFilter] using ih
    · rw [show (e :: rest).filter (fun e => !(invalidFilterEntry e)) =
          e :: rest.filter (fun e => !(invalidFilterEntry e)) from by simp [he]]
      unfold buildMetadataFilter
      rw [List.map_cons, List.flatten_cons, List.map_cons, List.flatten_cons]
      exact congrArg (fun l => entryConditions e ++ l)
        (by simpa [buildMetadataFilter] using ih)

/-- C7: filter entries with an invalid key, a null/undefined value, or an
operator object with no recognized operator shape are silently dropped —
the compiled conditions are those of the remaining entries — and the
search still executes (returns a result, never raises) for every
metadata filter whenever the query is non-blank. -/
theorem metadataFilter_invalid_silently_dropped
    (metadataFilter : List (String × JSValue)) :
    buildMetadataFilter metadataFilter =
      buildMetadataFilter (metadataFilter.filter
        (fun e => !(invalidFilterEntry e))) ∧
    ∀ (table : List StoredRow) (embedOf : String → List ℚ)
      (cosSim : List ℚ → List ℚ → ℚ) (query : String) (limit : Nat)
      (minSimilarity : ℚ) (expansionEnabled : Bool) (maxVariantsEnv : Nat),
      jsTrim query ≠ "" →
      (searchSimilar table embedOf cosSim query limit minSimilarity
        metadataFilter expansionEnabled maxVariantsEnv).isOk = true := by
  refine ⟨buildMetadataFilter_drops_invalid_eq metadataFilter, ?_⟩
  intro table embedOf cosSim query limit minSimilarity expansionEnabled
    maxVariantsEnv hq
  rw [searchSimilar_ok_eq table embedOf cosSim query limit minSimilarity
    metadataFilter expansionEnabled maxVariantsEnv hq]
  rfl

/-- Witness for C7: a filter containing a SQL-injection key, a null
value, an unknown operator object and one valid condition keeps exactly
the valid condition, and the search over the example table still runs. -/
theorem metadataFilter_invalid_silently_dropped_witness :
    buildMetadataFilter
        [("bad;key", JSValue.str "x"), ("title", JSValue.null),
         ("views", JSValue.obj [("$gt", JSValue.num (mkRat 10 1))]),
         ("source", JSValue.str "CoinDesk")] =
      buildMetadataFilter
        ([("bad;key", JSValue.str "x"), ("title", JSValue.null),
          ("views", JSValue.obj [("$gt", JSValue.num (mkRat 10 1))]),
          ("source", JSValue.str "CoinDesk")].filter
          (fun e => !(invalidFilterEntry e))) ∧
    jsTrim "DeFi" ≠ "" ∧
    (searchSimilar fusionExTable fusionExEmbed fusionExCos "DeFi" 2 (mkRat 1 2)
      [("bad;key", JSValue.str "x"), ("title", JSValue.null),
       ("views", JSValue.obj [("$gt", JSValue.num (mkRat 10 1))]),
       ("source", JSValue.str "CoinDesk")] true 2).isOk = true :=
  ⟨(metadataFilter_invalid_silently_dropped
      [("bad;key", JSValue.str "x"), ("title", JSValue.null),
       ("views", JSValue.obj [("$gt", JSValue.num (mkRat 10 1))]),
       ("source", JSValue.str "CoinDesk")]).1,
   by decide,
   (metadataFilter_invalid_silently_dropped
      [("bad;key", JSValue.str "x"), ("title", JSValue.null),
       ("views", JSValue.obj [("$gt", JSValue.num (mkRat 10 1))]),
       ("source", JSValue.str "CoinDesk")]).2
     fusionExTable fusionExEmbed fusionExCos "DeFi" 2 (mkRat 1 2) true 2
     (by decide)⟩

/-! ## Claim C4: batch insertion failure behaviour -/

/-- Example two-document batch for the persistence-failure analysis. -/
def batchExDocs : List DocInput :=
  [DocInput.mk "doc one" [], DocInput.mk "doc two" []]

/-- Failure oracle making the second INSERT statement fail. -/
def batchExFails (i : Nat) : Bool := i == 1

/-- Counterexample to C4 as stated: with embeddings computed successfully
and the second of two INSERTs failing, `addDocuments` fails and returns
no ids — but the first document of the batch remains inserted in the
store, so persistence is not all-or-nothing (there is no surrounding
transaction and no rollback in the source). -/
theorem addDocuments_not_all_or_nothing :
    (addDocuments batchExFails (.ok [[], []]) (Store.mk [] 1) batchExDocs).1.isOk
      = false ∧
    ((addDocuments batchExFails (.ok [[], []]) (Store.mk [] 1) batchExDocs).2.rows.map
      (fun r => r.content)) = ["doc one"] := by
  constructor
  · rfl
  · rfl

/-- A first failure at step `k` of the insertion loop aborts with a
storage error, leaving exactly the first `k` pairs committed. -/
theorem insertDocsLoop_fail (insertFails : Nat → Bool) (k : Nat) :
    ∀ (pairs : List (DocInput × List ℚ)) (store : Store) (i : Nat)
      (ids : List Nat),
      k < pairs.length →
      (∀ j, j < k → insertFails (i + j) = false) →
      insertFails (i + k) = true →
      insertDocsLoop insertFails store i ids pairs =
        (.error "StorageError: insert failed", persistAll store (pairs.take k)) := by
  induction k with
  | zero =>
    intro pairs store i ids hlen hbefore hfail
    cases pairs with
    | nil => simp at hlen
    | cons p rest =>
      obtain ⟨doc, emb⟩ := p
      rw [Nat.add_zero] at hfail
      simp [insertDocsLoop, hfail, persistAll]
  | succ k ih =>
    intro pairs store i ids hlen hbefore hfail
    cases pairs with
    | nil => simp at hlen
    | cons p rest =>
      obtain ⟨doc, emb⟩ := p
      have h0 : insertFails i = false := by
        have := hbefore 0 (Nat.succ_pos k)
        simpa using this
      unfold insertDocsLoop
      rw [h0]
      simp only [Bool.false_eq_true, if_false]
      rw [show (((doc, emb) :: rest).take (k + 1)) = (doc, emb) :: rest.take k
        from rfl]
      rw [show persistAll store ((doc, emb) :: rest.take k) =
        persistAll (insertRow store doc.content doc.metadata emb).2 (rest.take k)
        from rfl]
      refine ih rest (insertRow store doc.content doc.metadata emb).2 (i + 1)
        (ids ++ [(insertRow store doc.content doc.metadata emb).1]) ?_ ?_ ?_
      · simpa using hlen
      · intro j hj
        have := hbefore (j + 1) (by omega)
        rw [show i + 1 + j = i + (j + 1) from by omega]
        exact this
      · rw [show i + 1 + k = i + (k + 1) from by omega]
        exact hfail

/-- Committing pairs grows the table by exactly one row per pair. -/
theorem persistAll_rows_length (pairs : List (DocInput × List ℚ)) :
    ∀ store : Store,
      (persistAll store pairs).rows.length = store.rows.length + pairs.length := by
  induction pairs with
  | nil => intro store; simp [persistAll]
  | cons p rest ih =>
    intro store
    obtain ⟨doc, emb⟩ := p
    rw [show persistAll store ((doc, emb) :: rest) =
      persistAll (insertRow store doc.content doc.metadata emb).2 rest from rfl]
    rw [ih]
    simp [insertRow]
    omega

/-- C4 (amended): when embeddings succeed and the first failing INSERT is
statement `k`, `addDocuments` fails with a storage error and returns no
ids, but persistence is not all-or-nothing: exactly the `k` documents
persisted before the failing statement remain committed in the store. -/
theorem addDocuments_failure_keeps_committed_prefix (insertFails : Nat → Bool)
    (embeddings : List (List ℚ)) (store : Store) (documents : List DocInput)
    (k : Nat) (hk : k < (documents.zip embeddings).length)
    (hbefore : ∀ j, j < k → insertFails j = false)
    (hfail : insertFails k = true) :
    addDocuments insertFails (.ok embeddings) store documents =
      (.error "StorageError: insert failed",
        persistAll store ((documents.zip embeddings).take k)) ∧
    (persistAll store ((documents.zip embeddings).take k)).rows.length =
      store.rows.length + k := by
  have hne : documents.length ≠ 0 := by
    have := @List.length_zip _ _ documents embeddings
    omega
  constructor
  · unfold addDocuments
    rw [if_neg hne]
    have := insertDocsLoop_fail insertFails k (documents.zip embeddings) store 0 []
      hk (by intro j hj; simpa using hbefore j hj) (by simpa using hfail)
    exact this
  · rw [persistAll_rows_length]
    rw [List.length_take]
    omega

/-- Witness for C4 (amended) at the two-document example: the failing
statement is the second (`k = 1`), "doc one" stays committed. -/
theorem addDocuments_failure_keeps_committed_prefix_witness :
    (1 < (batchExDocs.zip [([] : List ℚ), []]).length ∧
      (∀ j, j < 1 → batchExFails j = false) ∧ batchExFails 1 = true) ∧
    (addDocuments batchExFails (.ok [[], []]) (Store.mk [] 1) batchExDocs =
      (.error "StorageError: insert failed",
        persistAll (Store.mk [] 1)
          ((batchExDocs.zip [([] : List ℚ), []]).take 1)) ∧
      (persistAll (Store.mk [] 1)
        ((batchExDocs.zip [([] : List ℚ), []]).take 1)).rows.length =
        (Store.mk [] 1).rows.length + 1) :=
  ⟨⟨by decide, fun j hj => by interval_cases j; rfl, rfl⟩,
    addDocuments_failure_keeps_committed_prefix batchExFails [[], []]
      (Store.mk [] 1) batchExDocs 1 (by decide)
      (fun j hj => by interval_cases j; rfl) rfl⟩

/-! ## Claim C9: `searchWeb3Context` fallback behaviour -/

/-- A string is empty exactly when its character data is. -/
theorem string_eq_empty_iff_data (s : String) : s = "" ↔ s.data = [] := by
  constructor
  · intro h
    rw [h]
  · intro h
    cases s with
    | mk ds =>
      have hds : ds = [] := h
      rw [hds]

/-- A string append is empty only when both parts are. -/
theorem string_append_eq_empty_iff (s t : String) :
    s ++ t = "" ↔ s = "" ∧ t = "" := by
  constructor
  · intro h
    have hd : s.data ++ t.data = [] := by
      have := congrArg String.data h
      simpa [String.data_append] using this
    obtain ⟨h1, h2⟩ := List.append_eq_nil.mp hd
    exact ⟨(string_eq_empty_iff_data s).mpr h1, (string_eq_empty_iff_data t).mpr h2⟩
  · rintro ⟨h1, h2⟩
    rw [h1, h2]
    rfl

/-- The coin/price branch only produces text together with a source. -/
theorem marketBranch_text_needs_source (env : Web3Env) (trigger : Bool)
    (h : (marketBranch env trigger).2 = []) :
    (marketBranch env trigger).1 = "" := by
  unfold marketBranch at h ⊢
  split
  · split
    · simp_all
    · rfl
  · rfl

/-- The DeFi branch only produces text together with a source. -/
theorem defiBranch_text_needs_source (env : Web3Env) (trigger : Bool)
    (d : String) (srcs : List SourceRef)
    (h : defiBranch env trigger = .ok (d, srcs)) (hs : srcs = []) :
    d = "" := by
  unfold defiBranch at h
  split at h
  · split at h
    · cases h
    · split at h
      · injection h with h
        injection h with h1 h2
        rw [← h2] at hs
        simp at hs
      · injection h with h
        injection h with h1 h2
        exact h1.symm
  · injection h with h
    injection h with h1 h2
    exact h1.symm

/-- The trending branch only produces text together with a source. -/
theorem trendingBranch_text_needs_source (env : Web3Env) (trigger : Bool)
    (d : String) (srcs : List SourceRef)
    (h : trendingBranch env trigger = .ok (d, srcs)) (hs : srcs = []) :
    d = "" := by
  unfold trendingBranch at h
  split at h
  · split at h
    · cases h
    · split at h
      · injection h with h
        injection h with h1 h2
        rw [← h2] at hs
        simp at hs
      · injection h with h
        injection h with h1 h2
        exact h1.symm
  · injection h with h
    injection h with h1 h2
    exact h1.symm

/-- A successful body always carries non-empty text and a source. -/
theorem searchWeb3ContextBody_ok_usable (env : Web3Env) (query : String)
    (r : Web3Context) (h : searchWeb3ContextBody env query = .ok r) :
    r.relevantData ≠ "" ∧ r.sources ≠ [] := by
  simp only [searchWeb3ContextBody] at h
  cases hd : defiBranch env
      (jsIncludes (jsToLower query) "defi" || jsIncludes (jsToLower query) "lending" ||
        jsIncludes (jsToLower query) "yield") with
  | error e =>
    rw [hd] at h
    simp [Bind.bind, Except.bind] at h
  | ok p2 =>
    cases ht : trendingBranch env
        (jsIncludes (jsToLower query) "trending" ||
          jsIncludes (jsToLower query) "trend") with
    | error e =>
      rw [hd, ht] at h
      simp [Bind.bind, Except.bind] at h
    | ok p3 =>
      rw [hd, ht] at h
      simp only [Bind.bind, Except.bind] at h
      split at h
      · rw [Except.ok.injEq] at h
        rw [← h]
        refine ⟨?_, by simp⟩
        intro habs
        rw [string_append_eq_empty_iff] at habs
        exact absurd habs.1 (by decide)
      · rename_i hne
        rw [Except.ok.injEq] at h
        rw [← h]
        refine ⟨hne, ?_⟩
        intro habs
        rw [List.append_eq_nil, List.append_eq_nil] at habs
        obtain ⟨⟨hs1, hs2⟩, hs3⟩ := habs
        have hd1 := marketBranch_text_needs_source env _ hs1
        have hd2 := defiBranch_text_needs_source env _ p2.1 p2.2 (by simpa using hd) hs2
        have hd3 := trendingBranch_text_needs_source env _ p3.1 p3.2 (by simpa using ht) hs3
        rw [hd1, hd2, hd3] at hne
        exact hne rfl

/-- C9 (code evaluated at the failing input): `searchWeb3Context` indeed
never raises and always returns non-empty `relevantData` with at least
one source; but when every external feed is fully unreachable (each
`fetch` rejects, so each feed's own catch resolves it to `[]`), the
function returns the generic summary with a CoinGecko source — not the
static "Due to network constraints..." fallback with the
"General Web3 Knowledge" placeholder source, which is reachable only when
the body itself throws (e.g. a malformed 200 response making a feed
resolve to `undefined`). -/
theorem searchWeb3Context_usable_and_unreachable_divergence :
    (∀ env query, (searchWeb3Context env query).relevantData ≠ "" ∧
      (searchWeb3Context env query).sources ≠ []) ∧
    (∀ query, searchWeb3Context (Web3Env.mk [] (some []) (some [])) query =
      Web3Context.mk
        "Web3 ecosystem is evolving rapidly with DeFi, NFTs, and Layer 2 solutions. "
        [SourceRef.mk "CoinGecko" "https://www.coingecko.com"]) ∧
    searchWeb3Context (Web3Env.mk [] (some []) (some [])) "hello" ≠
      Web3Context.mk
        ("Web3 is a rapidly evolving space including DeFi, NFTs, blockchain technology, and cryptocurrencies. "
          ++ "Due to network constraints, I cannot fetch current market data, but I can still discuss Web3 concepts and trends.")
        [SourceRef.mk "General Web3 Knowledge" "#"] := by
  refine ⟨?_, ?_, ?_⟩
  · intro env query
    unfold searchWeb3Context
    cases hbody : searchWeb3ContextBody env query with
    | ok r => exact searchWeb3ContextBody_ok_usable env query r hbody
    | error e =>
      dsimp only
      exact ⟨by decide, by decide⟩
  · intro query
    unfold searchWeb3Context
    have hm : ∀ t, marketBranch (Web3Env.mk [] (some []) (some [])) t =
        ("", []) := by
      intro t
      cases t <;> rfl
    have hdn : ∀ t, defiBranch (Web3Env.mk [] (some []) (some [])) t =
        .ok ("", []) := by
      intro t
      cases t <;> rfl
    have htn : ∀ t, trendingBranch (Web3Env.mk [] (some []) (some [])) t =
        .ok ("", []) := by
      intro t
      cases t <;> rfl
    simp only [searchWeb3ContextBody, hm, hdn, htn, Bind.bind, Except.bind]
    decide
  · decide
